import Mathlib

/-!
Verification of `components/echo/kube/sidecar.go` (integ-testing-framework).

The file embeds, shallowly, the sidecar accessor layer (`adminRequest`,
`Info`, `Config`, `Clusters`, `Listeners`, `Logs`) and the convergence
poller `WaitForConfig`.  External collaborators (the remote-execution
channel `PodExec`, the permissive decoder `protomarshal.Unmarshal...`,
the renderer `protomarshal.MarshalIndent`, the log channel `PodLogs`) are
taken as oracle parameters, following the spec which declares them out of
scope.  The retry loop `retry.UntilComplete` is not part of the excerpt;
it is modelled from the spec (section 4.2 state machine, section 7 error
taxonomy) as a synchronous backoff loop over abstract milliseconds.
-/

namespace SidecarSpec

/-- Go `strings.Contains s pat`: `pat` occurs as a contiguous substring of
`s`. -/
def strContains (s pat : String) : Bool := decide (pat.data <:+: s.data)

/-- A single apostrophe character (U+0027), used to spell the Go string
literals that contain apostrophes. -/
def sq : String := String.singleton (Char.ofNat 39)

/-- Signature of an unresolvable embedded type reference
(sidecar.go line 108). -/
def sigResolveAny : String := "could not resolve Any message type"

/-- Signature of the legacy missing-type-discriminator marker
(sidecar.go line 113).  The Go literal contains three apostrophes (one in
the contraction, two quoting the at-type key); they are built here from
explicit U+0027 characters via `sq`. -/
def sigNoAtType : String :=
  "Any JSON doesn" ++ sq ++ "t have " ++ sq ++ "@type" ++ sq

/-- sidecar.go line 38. -/
def proxyContainerName : String := "istio-proxy"

/-- sidecar.go line 41: 30 seconds, in milliseconds. -/
def defaultConfigTimeout : Nat := 30000

/-- sidecar.go line 44: 100 milliseconds. -/
def defaultConfigDelay : Nat := 100

/-- Opaque payload of `admin.ServerInfo`. -/
structure admin.ServerInfo where
  raw : Nat
deriving DecidableEq

/-- Opaque payload of `admin.ConfigDump`. -/
structure admin.ConfigDump where
  raw : Nat
deriving DecidableEq

/-- Opaque payload of `admin.Clusters`. -/
structure admin.Clusters where
  raw : Nat
deriving DecidableEq

/-- Opaque payload of `admin.Listeners`. -/
structure admin.Listeners where
  raw : Nat
deriving DecidableEq

/-- Result of one `cluster.PodExec` remote execution: captured stdout,
stderr and the channel error (`none` = success). -/
structure ExecResult where
  stdout : String
  stderr : String
  err : Option String
deriving DecidableEq

/-- The `sidecar` struct (sidecar.go lines 49-53); the cluster reference
is supplied separately as the `podExec` / `podLogs` oracles. -/
structure Sidecar where
  podNamespace : String
  podName : String
deriving DecidableEq

/-- Oracles for the permissive decoder, one per admin message type
(`protomarshal.UnmarshalAllowUnknown` instantiated at each decode
target). -/
structure Decoders where
  serverInfo : String → Except String admin.ServerInfo
  configDump : String → Except String admin.ConfigDump
  clusters : String → Except String admin.Clusters
  listeners : String → Except String admin.Listeners

/-- sidecar.go lines 192-205, `adminRequest`: build the admin-CLI command,
issue one remote execution, decode stdout.  The second component is the
list of commands handed to `PodExec` (the Go body contains a single
`PodExec` call and no loop). -/
def adminRequest (s : Sidecar) (podExec : String → ExecResult)
    (decode : String → Except String α) (path : String) :
    Except String α × List String :=
  let command := "pilot-agent request GET " ++ path
  let r := podExec command
  match r.err with
  | some e =>
      (Except.error ("failed exec on pod " ++ s.podNamespace ++ "/" ++ s.podName
        ++ ": " ++ e ++ ". Command: " ++ command ++ ". Output:\n"
        ++ (r.stdout ++ r.stderr)), [command])
  | none =>
      match decode r.stdout with
      | Except.error e =>
          (Except.error ("failed parsing Envoy admin response from " ++ sq ++ "/"
            ++ path ++ sq ++ ": " ++ e ++ "\nResponse JSON: " ++ r.stdout),
            [command])
      | Except.ok m => (Except.ok m, [command])

/-- sidecar.go lines 65-72, `Info`. -/
def Sidecar.Info (s : Sidecar) (podExec : String → ExecResult) (dec : Decoders) :
    Except String admin.ServerInfo × List String :=
  adminRequest s podExec dec.serverInfo "server_info"

/-- sidecar.go lines 83-90, `Config`. -/
def Sidecar.Config (s : Sidecar) (podExec : String → ExecResult) (dec : Decoders) :
    Except String admin.ConfigDump × List String :=
  adminRequest s podExec dec.configDump "config_dump"

/-- sidecar.go lines 156-163, `Clusters`. -/
def Sidecar.Clusters (s : Sidecar) (podExec : String → ExecResult) (dec : Decoders) :
    Except String admin.Clusters × List String :=
  adminRequest s podExec dec.clusters "clusters?format=json"

/-- sidecar.go lines 174-181, `Listeners`. -/
def Sidecar.Listeners (s : Sidecar) (podExec : String → ExecResult) (dec : Decoders) :
    Except String admin.Listeners × List String :=
  adminRequest s podExec dec.listeners "listeners?format=json"

/-- One argument tuple handed to the external `cluster.PodLogs` channel. -/
structure PodLogsCall where
  podName : String
  podNamespace : String
  container : String
  previousLog : Bool
deriving DecidableEq

/-- sidecar.go lines 207-209, `Logs`: forwards to `PodLogs` with the
since-last-restart flag hard-coded to `false`.  Returns the channel
result together with the call that was issued. -/
def Sidecar.Logs (s : Sidecar) (podLogs : PodLogsCall → Except String String) :
    Except String String × PodLogsCall :=
  let call : PodLogsCall :=
    ⟨s.podName, s.podNamespace, proxyContainerName, false⟩
  (podLogs call, call)

/-! ## The convergence poller -/

/-- Outcome of the modelled `retry.UntilComplete` loop: the final value of
the captured `cfg` cell, the error returned by the loop, and the elapsed
time (milliseconds from the start of the invocation) at which each
attempt ran, in order. -/
structure LoopOut where
  cfg : Option admin.ConfigDump
  err : Option String
  times : List Nat
deriving DecidableEq

/-- Modelled from the spec: the timeout-exhaustion diagnostic of the
retry loop (util/retry, not part of this excerpt).  Spec section 7:
timeout exhaustion "reports the last transient error"; section 8: the
error text reflects the last transient error, "not a generic timeout
message with no cause". -/
def timeoutText : Option String → String
  | some e => "timed out waiting (last error: " ++ e ++ ")"
  | none => "timed out waiting"

/-- Modelled from the spec: the loop body of `retry.UntilComplete`
(util/retry, not part of this excerpt), spec section 4.2.  `body n` is
the n-th invocation of the retriable closure and returns the value it
wrote into the captured `cfg` cell, the `completed` flag and its error.
A completed attempt ends the loop at once with the error of that attempt
(Terminal on a non-nil error, success on nil).  A non-completed attempt
records its error as the last transient error and enters Retry-Wait:
if the elapsed time has reached the total timeout the loop ends with the
last transient error, otherwise it sleeps `delay` and re-runs the body.
`fuel` is a structural bound on the remaining iterations; the entry
point supplies `fuel = timeout + 1`, so that for a positive delay the
invariant `timeout < elapsed + fuel * delay` holds throughout and the
out-of-fuel base case is reached only when the elapsed time has already
passed the timeout — the base case returns exactly the Retry-Wait
timeout outcome whose check it elides.  The lemmas below thread this
invariant as a hypothesis. -/
def pollLoopF (body : Nat → Option admin.ConfigDump × Bool × Option String)
    (delay timeout : Nat) :
    (fuel n elapsed : Nat) → Option String → LoopOut
  | 0, n, elapsed, lastErr =>
    match body n with
    | (cfg, true, err) => ⟨cfg, err, [elapsed]⟩
    | (cfg, false, err) =>
      let le := match err with | some e => some e | none => lastErr
      ⟨cfg, some (timeoutText le), [elapsed]⟩
  | fuel + 1, n, elapsed, lastErr =>
    match body n with
    | (cfg, true, err) => ⟨cfg, err, [elapsed]⟩
    | (cfg, false, err) =>
      let le := match err with | some e => some e | none => lastErr
      if timeout ≤ elapsed then
        ⟨cfg, some (timeoutText le), [elapsed]⟩
      else
        let r := pollLoopF body delay timeout fuel (n + 1) (elapsed + delay) le
        ⟨r.cfg, r.err, elapsed :: r.times⟩

/-- Modelled from the spec: `retry.UntilComplete` entry point, starting
at attempt 0, elapsed time 0, no last transient error. -/
def untilComplete (body : Nat → Option admin.ConfigDump × Bool × Option String)
    (delay timeout : Nat) : LoopOut :=
  pollLoopF body delay timeout (timeout + 1) 0 0 none

/-- sidecar.go lines 105-134: the retriable closure passed to
`retry.UntilComplete`.  `fetches n` is the result of the n-th call to
`s.Config()` (the remote state may change between polls); `accept` is the
acceptance predicate supplied by the caller.  The first component is the value the Go
closure assigns to the captured `cfg` variable: the multiple assignment
`cfg, err = s.Config()` stores `nil` whenever the fetch fails. -/
def waitBody (fetches : Nat → Except String admin.ConfigDump)
    (accept : admin.ConfigDump → Bool × Option String) (n : Nat) :
    Option admin.ConfigDump × Bool × Option String :=
  match fetches n with
  | Except.error e =>
    if strContains e sigResolveAny then (none, true, none)
    else if strContains e sigNoAtType then (none, true, none)
    else (none, false, some e)
  | Except.ok c =>
    match accept c with
    | (_, some e) => (some c, false, some e)
    | (true, none) => (some c, true, none)
    | (false, none) => (some c, true, some "envoy config rejected")

/-- sidecar.go lines 136-142: the rendered diagnostic; the literal
sentinel `"nil"` when the `cfg` cell holds no snapshot, otherwise the
rendered snapshot.  `render` stands for `protomarshal.MarshalIndent`,
modelled from the spec as total (section 6: `render(message, indent) →
bytes`). -/
def diagString (render : admin.ConfigDump → String) :
    Option admin.ConfigDump → String
  | none => "nil"
  | some c => render c

/-- sidecar.go line 144: the terminal error text of `WaitForConfig`. -/
def mkWaitErr (cause dump : String) : String :=
  "failed waiting for Envoy configuration: " ++ cause
    ++ ". Last config_dump:\n" ++ dump

/-- The snapshot value the Go multiple assignment `cfg, err = s.Config()`
leaves in `cfg` for a given fetch outcome. -/
def cfgOfFetch : Except String admin.ConfigDump → Option admin.ConfigDump
  | Except.ok c => some c
  | Except.error _ => none

/-- Outcome of one `WaitForConfig` invocation: the returned error
(`none` = success), the final value of the `cfg` cell, and the attempt
times of the underlying loop. -/
structure WaitOutcome where
  error : Option String
  cfg : Option admin.ConfigDump
  times : List Nat
deriving DecidableEq

/-- sidecar.go lines 101-147, `WaitForConfig`, for an already-applied
poll policy (`delay`, `timeout`; the option plumbing of line 102 is
`waitForConfigPolicy` below).  Runs the retry loop on the closure and,
when the loop returns an error, wraps it together with the rendered
last `cfg` value. -/
def waitForConfig (fetches : Nat → Except String admin.ConfigDump)
    (accept : admin.ConfigDump → Bool × Option String)
    (render : admin.ConfigDump → String)
    (delay timeout : Nat) : WaitOutcome :=
  let r := untilComplete (waitBody fetches accept) delay timeout
  match r.err with
  | none => ⟨none, r.cfg, r.times⟩
  | some e => ⟨some (mkWaitErr e (diagString render r.cfg)), r.cfg, r.times⟩

/-! ## The poll policy (retry options) -/

/-- Modelled from the spec: a retry option mutates the retry
configuration; options are applied in order, so a later option overrides
an earlier one (spec section 3: "Caller may override or extend"). -/
structure RetryConfig where
  delay : Nat
  timeout : Nat
deriving DecidableEq

/-- Modelled from the spec: `retry.BackoffDelay` sets the backoff
delay. -/
def retry.BackoffDelay (d : Nat) : RetryConfig → RetryConfig :=
  fun c => { c with delay := d }

/-- Modelled from the spec: `retry.Timeout` sets the total timeout. -/
def retry.Timeout (t : Nat) : RetryConfig → RetryConfig :=
  fun c => { c with timeout := t }

/-- Modelled from the spec: the retry package applies the supplied
options to its base configuration in order. -/
def retry.applyOptions (base : RetryConfig)
    (opts : List (RetryConfig → RetryConfig)) : RetryConfig :=
  opts.foldl (fun c o => o c) base

/-- sidecar.go line 102: `WaitForConfig` prepends
`retry.BackoffDelay(defaultConfigDelay)` and
`retry.Timeout(defaultConfigTimeout)` to the options of the caller, so the
defaults are applied first and any caller option later (and therefore
wins).  `base` is the own base configuration of the retry package, which the
two prepended defaults always overwrite. -/
def waitForConfigPolicy (base : RetryConfig)
    (options : List (RetryConfig → RetryConfig)) : RetryConfig :=
  retry.applyOptions base
    (retry.BackoffDelay defaultConfigDelay :: retry.Timeout defaultConfigTimeout
      :: options)

/-! ## Outcome classification and concrete poll scenarios -/

/-- The n-th poll attempt is a transient outcome (spec section 7): an
ordinary fetch or decode error matching neither terminal signature, or a
successful fetch whose predicate returns an error. -/
def TransientAt (fetches : Nat → Except String admin.ConfigDump)
    (accept : admin.ConfigDump → Bool × Option String) (n : Nat) : Prop :=
  (∃ e, fetches n = Except.error e ∧ strContains e sigResolveAny = false ∧
    strContains e sigNoAtType = false) ∨
  (∃ c b e, fetches n = Except.ok c ∧ accept c = (b, some e))

/-- Scenario: the first fetch decodes, every later one fails with an
ordinary transient error. -/
def fetchesC1 : Nat → Except String admin.ConfigDump :=
  fun n => if n = 0 then Except.ok ⟨1⟩ else Except.error "connection refused"

/-- Predicate that always signals a transient not-yet-converged error. -/
def acceptC1 : admin.ConfigDump → Bool × Option String :=
  fun _ => (false, some "not yet converged")

def renderC1 : admin.ConfigDump → String :=
  fun c => "rendered-" ++ Nat.repr c.raw

/-- Scenario: the first fetch fails with the unresolvable-type-reference
signature in its error text. -/
def fetchesC2 : Nat → Except String admin.ConfigDump :=
  fun _ => Except.error "rpc error: could not resolve Any message type envoy.config.foo"

def acceptC2 : admin.ConfigDump → Bool × Option String := fun _ => (true, none)

def renderC2 : admin.ConfigDump → String := fun _ => "R2"

/-- Scenario: fetches always decode to the same snapshot. -/
def fetchesC3 : Nat → Except String admin.ConfigDump := fun _ => Except.ok ⟨5⟩

/-- Predicate that always cleanly rejects: `(false, nil)`. -/
def acceptC3 : admin.ConfigDump → Bool × Option String := fun _ => (false, none)

def renderC3 : admin.ConfigDump → String := fun _ => "rendered-config-dump"

def fetchesC4 : Nat → Except String admin.ConfigDump := fun _ => Except.ok ⟨7⟩

/-- Predicate that accepts every snapshot at once. -/
def acceptC4 : admin.ConfigDump → Bool × Option String := fun _ => (true, none)

def renderC4 : admin.ConfigDump → String := fun _ => "R4"

/-- Scenario: every fetch fails with an ordinary transient error. -/
def fetchesC5 : Nat → Except String admin.ConfigDump :=
  fun _ => Except.error "connection reset by peer"

def acceptC5 : admin.ConfigDump → Bool × Option String := fun _ => (true, none)

def renderC5 : admin.ConfigDump → String := fun _ => "R5"

/-- Scenario: each fetch yields a fresh snapshot numbered by attempt. -/
def fetchesC6 : Nat → Except String admin.ConfigDump := fun n => Except.ok ⟨n⟩

/-- Predicate that rejects snapshot 0 with a transient error and accepts
every later snapshot. -/
def acceptC6 : admin.ConfigDump → Bool × Option String :=
  fun d => if d.raw = 0 then (false, some "nope") else (true, none)

def renderC6 : admin.ConfigDump → String := fun _ => "R6"

def cC6 : Nat → admin.ConfigDump := fun n => ⟨n⟩

def eC6 : Nat → String := fun _ => "nope"

def sC7 : Sidecar := ⟨"test-ns", "echo-pod"⟩

/-- Remote execution oracle that returns a malformed body successfully. -/
def podExecC7 : String → ExecResult := fun _ => ⟨"bogus-body", "", none⟩

/-- Decoders that fail on every body. -/
def decC7 : Decoders :=
  ⟨fun _ => Except.error "unexpected token",
   fun _ => Except.error "unexpected token",
   fun _ => Except.error "unexpected token",
   fun _ => Except.error "unexpected token"⟩

def sC8 : Sidecar := ⟨"ns8", "pod8"⟩

/-- Remote execution oracle that fails at the transport layer. -/
def podExecC8 : String → ExecResult :=
  fun _ => ⟨"out-8", "err-8", some "command terminated with exit code 1"⟩

/-- Remote execution oracle that succeeds with an undecodable body. -/
def podExecC8b : String → ExecResult := fun _ => ⟨"not-json", "", none⟩

def decodeC8 : String → Except String admin.ConfigDump := fun _ => Except.error "bad"

/-! ## General lemmas about the accessor layer -/

/-- Every `adminRequest` issues exactly one remote execution, with the
admin-CLI command built from its path. -/
theorem adminRequest_trace {α : Type} (s : Sidecar) (podExec : String → ExecResult)
    (decode : String → Except String α) (path : String) :
    (adminRequest s podExec decode path).2 = ["pilot-agent request GET " ++ path] := by
  unfold adminRequest
  dsimp only
  split
  · rfl
  · split <;> rfl

/-- On transport failure, `adminRequest` returns the exec-failure error
text with the captured combined output at its end. -/
theorem adminRequest_exec_error {α : Type} (s : Sidecar) (podExec : String → ExecResult)
    (decode : String → Except String α) (path : String) (e : String)
    (hx : (podExec ("pilot-agent request GET " ++ path)).err = some e) :
    (adminRequest s podExec decode path).1 =
      Except.error ("failed exec on pod " ++ s.podNamespace ++ "/" ++ s.podName
        ++ ": " ++ e ++ ". Command: " ++ ("pilot-agent request GET " ++ path)
        ++ ". Output:\n"
        ++ ((podExec ("pilot-agent request GET " ++ path)).stdout
            ++ (podExec ("pilot-agent request GET " ++ path)).stderr)) := by
  simp [adminRequest, hx]

/-- On decode failure, `adminRequest` returns the parse-failure error
text with the raw response body at its end. -/
theorem adminRequest_decode_error {α : Type} (s : Sidecar) (podExec : String → ExecResult)
    (decode : String → Except String α) (path : String) (m : String)
    (hx : (podExec ("pilot-agent request GET " ++ path)).err = none)
    (hdc : decode (podExec ("pilot-agent request GET " ++ path)).stdout = Except.error m) :
    (adminRequest s podExec decode path).1 =
      Except.error ("failed parsing Envoy admin response from " ++ sq ++ "/" ++ path ++ sq
        ++ ": " ++ m ++ "\nResponse JSON: "
        ++ (podExec ("pilot-agent request GET " ++ path)).stdout) := by
  simp [adminRequest, hx, hdc]

/-- On decode success, `adminRequest` returns the decoded message. -/
theorem adminRequest_decode_ok {α : Type} (s : Sidecar) (podExec : String → ExecResult)
    (decode : String → Except String α) (path : String) (m : α)
    (hx : (podExec ("pilot-agent request GET " ++ path)).err = none)
    (hdc : decode (podExec ("pilot-agent request GET " ++ path)).stdout = Except.ok m) :
    (adminRequest s podExec decode path).1 = Except.ok m := by
  simp [adminRequest, hx, hdc]

/-- The transport-failure error embeds the combined captured output
verbatim. -/
theorem adminRequest_exec_error_embeds {α : Type} (s : Sidecar)
    (podExec : String → ExecResult) (decode : String → Except String α)
    (path : String) (e : String)
    (hx : (podExec ("pilot-agent request GET " ++ path)).err = some e) :
    ∃ pre post, (adminRequest s podExec decode path).1 =
      Except.error (pre ++ ((podExec ("pilot-agent request GET " ++ path)).stdout
        ++ (podExec ("pilot-agent request GET " ++ path)).stderr) ++ post) := by
  refine ⟨"failed exec on pod " ++ s.podNamespace ++ "/" ++ s.podName
    ++ ": " ++ e ++ ". Command: " ++ ("pilot-agent request GET " ++ path)
    ++ ". Output:\n", "", ?_⟩
  rw [adminRequest_exec_error s podExec decode path e hx]
  simp

/-- The decode-failure error embeds the raw response body verbatim. -/
theorem adminRequest_decode_error_embeds {α : Type} (s : Sidecar)
    (podExec : String → ExecResult) (decode : String → Except String α)
    (path : String) (m : String)
    (hx : (podExec ("pilot-agent request GET " ++ path)).err = none)
    (hdc : decode (podExec ("pilot-agent request GET " ++ path)).stdout = Except.error m) :
    ∃ pre post, (adminRequest s podExec decode path).1 =
      Except.error (pre ++ (podExec ("pilot-agent request GET " ++ path)).stdout ++ post) := by
  refine ⟨"failed parsing Envoy admin response from " ++ sq ++ "/" ++ path ++ sq
    ++ ": " ++ m ++ "\nResponse JSON: ", "", ?_⟩
  rw [adminRequest_decode_error s podExec decode path m hx hdc]
  simp

/-! ## General lemmas about the poll loop -/

/-- The `cfg` cell value computed by the closure is exactly what the
multiple assignment leaves for the fetch outcome of that attempt: the
snapshot on success, `none` on any fetch failure. -/
theorem waitBody_cfg (fetches : Nat → Except String admin.ConfigDump)
    (accept : admin.ConfigDump → Bool × Option String) (n : Nat) :
    (waitBody fetches accept n).1 = cfgOfFetch (fetches n) := by
  unfold waitBody cfgOfFetch
  rcases fetches n with e | c
  · dsimp only
    split <;> (try rfl)
    split <;> rfl
  · dsimp only
    rcases hacc : accept c with ⟨b, oe⟩
    rcases oe with _ | e
    · cases b <;> rfl
    · cases b <;> rfl

/-- The loop performs at least one attempt and its final `cfg` cell holds
the value written by the last attempt. -/
theorem pollLoopF_cfg_last (body : Nat → Option admin.ConfigDump × Bool × Option String)
    (delay timeout : Nat) :
    ∀ (fuel n elapsed : Nat) (lastErr : Option String),
      1 ≤ (pollLoopF body delay timeout fuel n elapsed lastErr).times.length ∧
      (pollLoopF body delay timeout fuel n elapsed lastErr).cfg =
        (body (n + (pollLoopF body delay timeout fuel n elapsed lastErr).times.length - 1)).1 := by
  intro fuel
  induction fuel with
  | zero =>
    intro n elapsed lastErr
    rcases hb : body n with ⟨cfg, flag, err⟩
    cases flag <;> simp [pollLoopF, hb]
  | succ fuel ih =>
    intro n elapsed lastErr
    rcases hb : body n with ⟨cfg, flag, err⟩
    cases flag
    · by_cases h : timeout ≤ elapsed
      · simp [pollLoopF, hb, h]
      · rcases err with _ | e <;>
        · first
          | (obtain ⟨h1, h2⟩ := ih (n + 1) (elapsed + delay) lastErr
             simp only [pollLoopF, hb, h, if_false, List.length_cons]
             refine ⟨by simp, ?_⟩
             have heq : n + ((pollLoopF body delay timeout fuel (n + 1) (elapsed + delay)
                 lastErr).times.length + 1) - 1
               = n + 1 + (pollLoopF body delay timeout fuel (n + 1) (elapsed + delay)
                 lastErr).times.length - 1 := by
               omega
             rw [heq]
             exact h2)
          | (obtain ⟨h1, h2⟩ := ih (n + 1) (elapsed + delay) (some e)
             simp only [pollLoopF, hb, h, if_false, List.length_cons]
             refine ⟨by simp, ?_⟩
             have heq : n + ((pollLoopF body delay timeout fuel (n + 1) (elapsed + delay)
                 (some e)).times.length + 1) - 1
               = n + 1 + (pollLoopF body delay timeout fuel (n + 1) (elapsed + delay)
                 (some e)).times.length - 1 := by
               omega
             rw [heq]
             exact h2)
    · simp [pollLoopF, hb]

/-- Peeling one attempt off an arithmetic-progression attempt schedule. -/
theorem rangeMapStep (a d m : Nat) :
    (List.range (m + 1)).map (fun i => a + i * d) =
      a :: (List.range m).map (fun i => (a + d) + i * d) := by
  rw [List.range_succ_eq_map, List.map_cons, List.map_map]
  refine congrArg₂ _ (by simp) ?_
  refine List.map_congr_left ?_
  intro i _
  simp only [Function.comp_apply, Nat.succ_eq_add_one]
  rw [Nat.add_mul]
  omega

/-- All-transient runs exhaust the time budget: the loop attempts at
`elapsed, elapsed + delay, ...` until the elapsed time first reaches the
timeout, and ends with the timeout diagnostic built from the transient
error of the final attempt. -/
theorem pollLoopF_transient (body : Nat → Option admin.ConfigDump × Bool × Option String)
    (delay timeout : Nat)
    (htr : ∀ m, (body m).2.1 = false ∧ (body m).2.2.isSome = true) :
    ∀ (fuel n elapsed : Nat) (lastErr : Option String),
      timeout < elapsed + fuel * delay →
      ∃ K e,
        (pollLoopF body delay timeout fuel n elapsed lastErr).times =
          (List.range (K + 1)).map (fun i => elapsed + i * delay) ∧
        timeout ≤ elapsed + K * delay ∧
        (∀ j, j < K → elapsed + j * delay < timeout) ∧
        (body (n + K)).2.2 = some e ∧
        (pollLoopF body delay timeout fuel n elapsed lastErr).err =
          some (timeoutText (some e)) ∧
        (pollLoopF body delay timeout fuel n elapsed lastErr).cfg = (body (n + K)).1 := by
  intro fuel
  induction fuel with
  | zero =>
    intro n elapsed lastErr hinv
    obtain ⟨hb1, hb2⟩ := htr n
    rcases hb : body n with ⟨cfg, flag, err⟩
    rw [hb] at hb1 hb2
    simp only at hb1 hb2
    subst hb1
    rcases err with _ | e
    · simp at hb2
    refine ⟨0, e, ?_, ?_, ?_, ?_, ?_, ?_⟩
    · simp [pollLoopF, hb, List.range_succ_eq_map]
    · omega
    · intro j hj
      omega
    · simp [hb]
    · simp [pollLoopF, hb]
    · simp [pollLoopF, hb]
  | succ fuel ih =>
    intro n elapsed lastErr hinv
    obtain ⟨hb1, hb2⟩ := htr n
    rcases hb : body n with ⟨cfg, flag, err⟩
    rw [hb] at hb1 hb2
    simp only at hb1 hb2
    subst hb1
    rcases err with _ | e
    · simp at hb2
    by_cases h : timeout ≤ elapsed
    · refine ⟨0, e, ?_, ?_, ?_, ?_, ?_, ?_⟩
      · simp [pollLoopF, hb, h, List.range_succ_eq_map]
      · omega
      · intro j hj
        omega
      · simp [hb]
      · simp [pollLoopF, hb, h]
      · simp [pollLoopF, hb, h]
    · obtain ⟨K, e2, hK1, hK2, hK3, hK4, hK5, hK6⟩ :=
        ih (n + 1) (elapsed + delay) (some e)
          (by rw [Nat.succ_mul] at hinv; omega)
      refine ⟨K + 1, e2, ?_, ?_, ?_, ?_, ?_, ?_⟩
      · simp only [pollLoopF, hb, if_neg h]
        rw [rangeMapStep, hK1]
      · rw [Nat.succ_mul]
        omega
      · intro j hj
        rcases j with _ | j
        · simpa using Nat.lt_of_not_le h
        · have := hK3 j (by omega)
          rw [Nat.succ_mul]
          omega
      · have heq : n + (K + 1) = n + 1 + K := by omega
        rw [heq]
        exact hK4
      · simp only [pollLoopF, hb, if_neg h]
        exact hK5
      · simp only [pollLoopF, hb, if_neg h]
        have heq : n + (K + 1) = n + 1 + K := by omega
        rw [heq]
        exact hK6

/-- A run of `m` transient attempts inside the time budget followed by a
completed attempt returns the `cfg` value and error of that attempt,
after exactly `m + 1` attempts spaced `delay` apart. -/
theorem pollLoopF_succeeds (body : Nat → Option admin.ConfigDump × Bool × Option String)
    (delay timeout : Nat) :
    ∀ (m fuel n elapsed : Nat) (lastErr : Option String),
      timeout < elapsed + fuel * delay →
      (∀ j, j < m → (body (n + j)).2.1 = false) →
      (∀ j, j < m → elapsed + j * delay < timeout) →
      (body (n + m)).2.1 = true →
      pollLoopF body delay timeout fuel n elapsed lastErr =
        ⟨(body (n + m)).1, (body (n + m)).2.2,
          (List.range (m + 1)).map (fun i => elapsed + i * delay)⟩ := by
  intro m
  induction m with
  | zero =>
    intro fuel n elapsed lastErr hinv htr hbud hdone
    rcases hb : body n with ⟨cfg, flag, err⟩
    rw [Nat.add_zero, hb] at hdone
    simp only at hdone
    subst hdone
    cases fuel <;> simp [pollLoopF, hb, List.range_succ_eq_map]
  | succ m ih =>
    intro fuel n elapsed lastErr hinv htr hbud hdone
    have h0 : (body n).2.1 = false := by simpa using htr 0 (by omega)
    have hel : elapsed < timeout := by simpa using hbud 0 (by omega)
    rcases hb : body n with ⟨cfg, flag, err⟩
    rw [hb] at h0
    simp only at h0
    subst h0
    cases fuel with
    | zero => exact absurd hinv (by omega)
    | succ fuel =>
      have hnle : ¬ timeout ≤ elapsed := by omega
      have heq : n + (m + 1) = n + 1 + m := by omega
      rcases err with _ | e <;>
      · simp only [pollLoopF, hb, if_neg hnle]
        rw [ih fuel (n + 1) (elapsed + delay) _
          (by rw [Nat.succ_mul] at hinv; omega)
          (by
            intro j hj
            have hx := htr (j + 1) (by omega)
            rwa [show n + (j + 1) = n + 1 + j from by omega] at hx)
          (by
            intro j hj
            have hx := hbud (j + 1) (by omega)
            rw [Nat.succ_mul] at hx
            omega)
          (by rwa [heq] at hdone)]
        rw [heq]
        conv_rhs => rw [rangeMapStep]

/-- A closure whose first invocation reports completion ends the loop at
once: one attempt, at elapsed time zero, returning the error and `cfg`
value of that attempt. -/
theorem untilComplete_completed (body : Nat → Option admin.ConfigDump × Bool × Option String)
    (delay timeout : Nat) (h : (body 0).2.1 = true) :
    untilComplete body delay timeout = ⟨(body 0).1, (body 0).2.2, [0]⟩ := by
  rcases hb : body 0 with ⟨cfg, flag, err⟩
  rw [hb] at h
  simp only at h
  subst h
  simp [untilComplete, pollLoopF, hb]

/-- The loop performs at least one attempt; its final `cfg` cell is the
value written by the last attempt. -/
theorem untilComplete_cfg_last (body : Nat → Option admin.ConfigDump × Bool × Option String)
    (delay timeout : Nat) :
    1 ≤ (untilComplete body delay timeout).times.length ∧
    (untilComplete body delay timeout).cfg =
      (body ((untilComplete body delay timeout).times.length - 1)).1 := by
  have h := pollLoopF_cfg_last body delay timeout (timeout + 1) 0 0 none
  simpa [untilComplete] using h

/-- `WaitForConfig` reports the attempt schedule of its underlying
loop unchanged. -/
theorem waitForConfig_times (fetches : Nat → Except String admin.ConfigDump)
    (accept : admin.ConfigDump → Bool × Option String)
    (render : admin.ConfigDump → String) (delay timeout : Nat) :
    (waitForConfig fetches accept render delay timeout).times =
      (untilComplete (waitBody fetches accept) delay timeout).times := by
  unfold waitForConfig
  dsimp only
  split <;> rfl

/-- `WaitForConfig` reports the final `cfg` cell of its underlying loop
unchanged. -/
theorem waitForConfig_cfg_eq (fetches : Nat → Except String admin.ConfigDump)
    (accept : admin.ConfigDump → Bool × Option String)
    (render : admin.ConfigDump → String) (delay timeout : Nat) :
    (waitForConfig fetches accept render delay timeout).cfg =
      (untilComplete (waitBody fetches accept) delay timeout).cfg := by
  unfold waitForConfig
  dsimp only
  split <;> rfl

/-- A transient outcome makes the closure report not-completed with a
non-nil error. -/
theorem transient_waitBody (fetches : Nat → Except String admin.ConfigDump)
    (accept : admin.ConfigDump → Bool × Option String) (n : Nat)
    (h : TransientAt fetches accept n) :
    (waitBody fetches accept n).2.1 = false ∧
    (waitBody fetches accept n).2.2.isSome = true := by
  rcases h with ⟨e, hf, h1, h2⟩ | ⟨c, b, e, hf, hacc⟩
  · simp [waitBody, hf, h1, h2]
  · simp [waitBody, hf, hacc]

/-- Reading one entry of an arithmetic-progression attempt schedule. -/
theorem getD_range_map (f : Nat → Nat) (K i : Nat) (h : i < K) :
    ((List.range K).map f).getD i 0 = f i := by
  rw [List.getD_eq_getElem?_getD, List.getElem?_map, List.getElem?_range h]
  rfl

/-! ## The claims -/

/-- Claim C1, counterexample.  With delay 1 and timeout 2, the run whose
first fetch decodes snapshot 1 and whose later fetches fail transiently
ends in a terminal failure whose diagnostic renders the sentinel nil
marker, although a fetch of this very invocation succeeded: the
multiple assignment overwrote the captured snapshot with nil on the
later failed fetch.  This refutes both halves of the claim: the embedded
snapshot is not the last successfully decoded one, and the nil marker
appears despite a successful fetch. -/
theorem c1_counterexample :
    (waitForConfig fetchesC1 acceptC1 renderC1 1 2).error.isSome = true ∧
    diagString renderC1 (waitForConfig fetchesC1 acceptC1 renderC1 1 2).cfg = "nil" ∧
    cfgOfFetch (fetchesC1 0) = some ⟨1⟩ ∧
    (waitForConfig fetchesC1 acceptC1 renderC1 1 2).cfg ≠ some ⟨1⟩ ∧
    (waitForConfig fetchesC1 acceptC1 renderC1 1 2).times.length = 3 := by
  decide

/-- Claim C1, amended.  For every invocation of WaitForConfig that ends
in a terminal failure, the configuration snapshot embedded in the
returned error is the result of the final fetch of the invocation (not
the last successfully decoded one), and the sentinel nil marker appears
in the diagnostic if and only if the final fetch did not decode
successfully. -/
theorem c1_amended (fetches : Nat → Except String admin.ConfigDump)
    (accept : admin.ConfigDump → Bool × Option String)
    (render : admin.ConfigDump → String) (delay timeout : Nat)
    (h : (waitForConfig fetches accept render delay timeout).error.isSome = true) :
    (waitForConfig fetches accept render delay timeout).cfg =
      cfgOfFetch (fetches
        ((waitForConfig fetches accept render delay timeout).times.length - 1)) ∧
    ((waitForConfig fetches accept render delay timeout).cfg = none ↔
      ∃ e, fetches
        ((waitForConfig fetches accept render delay timeout).times.length - 1) =
          Except.error e) ∧
    ∃ cause, (waitForConfig fetches accept render delay timeout).error =
      some (mkWaitErr cause
        (diagString render (waitForConfig fetches accept render delay timeout).cfg)) := by
  obtain ⟨h1, h2⟩ := untilComplete_cfg_last (waitBody fetches accept) delay timeout
  rw [waitBody_cfg] at h2
  rcases hre : (untilComplete (waitBody fetches accept) delay timeout).err with _ | e
  · exfalso
    simp [waitForConfig, hre] at h
  · refine ⟨?_, ?_, ?_⟩
    · simp only [waitForConfig, hre]
      exact h2
    · simp only [waitForConfig, hre]
      constructor
      · intro hnone
        rw [hnone] at h2
        rcases hf : fetches
            ((untilComplete (waitBody fetches accept) delay timeout).times.length - 1)
          with e2 | c
        · exact ⟨e2, rfl⟩
        · rw [hf] at h2
          simp [cfgOfFetch] at h2
      · rintro ⟨e2, hf⟩
        rw [hf] at h2
        simpa [cfgOfFetch] using h2
    · exact ⟨e, by simp only [waitForConfig, hre]⟩

/-- Claim C1, witness: the amended statement evaluated on the concrete
run of the counterexample. -/
theorem c1_amended_witness :
    (waitForConfig fetchesC1 acceptC1 renderC1 1 2).error.isSome = true ∧
    ((waitForConfig fetchesC1 acceptC1 renderC1 1 2).cfg =
      cfgOfFetch (fetchesC1
        ((waitForConfig fetchesC1 acceptC1 renderC1 1 2).times.length - 1)) ∧
    ((waitForConfig fetchesC1 acceptC1 renderC1 1 2).cfg = none ↔
      ∃ e, fetchesC1 ((waitForConfig fetchesC1 acceptC1 renderC1 1 2).times.length - 1) =
        Except.error e) ∧
    ∃ cause, (waitForConfig fetchesC1 acceptC1 renderC1 1 2).error =
      some (mkWaitErr cause
        (diagString renderC1 (waitForConfig fetchesC1 acceptC1 renderC1 1 2).cfg))) :=
  ⟨by decide, c1_amended fetchesC1 acceptC1 renderC1 1 2 (by decide)⟩

/-- Claim C2, counterexample.  With the unresolvable-type-reference
signature in the error text of the first fetch, the poll does stop after
exactly one fetch, but WaitForConfig returns success (a nil error), not
a terminal error: the closure reports completed with a nil error,
exactly as on the accepted path. -/
theorem c2_counterexample :
    strContains "rpc error: could not resolve Any message type envoy.config.foo"
      sigResolveAny = true ∧
    cfgOfFetch (fetchesC2 0) = none ∧
    (waitForConfig fetchesC2 acceptC2 renderC2 1 30000).error = none ∧
    (waitForConfig fetchesC2 acceptC2 renderC2 1 30000).times.length = 1 := by
  decide

/-- Claim C2, amended.  For every invocation of WaitForConfig in which
the first fetch fails with an error whose text contains the
unresolvable-embedded-type-reference signature or the legacy
missing-type-discriminator signature, the poll stops after exactly one
fetch, regardless of the configured timeout, and WaitForConfig returns
success (a nil error) with no snapshot recorded. -/
theorem c2_amended (fetches : Nat → Except String admin.ConfigDump)
    (accept : admin.ConfigDump → Bool × Option String)
    (render : admin.ConfigDump → String) (delay timeout : Nat) (e : String)
    (hf : fetches 0 = Except.error e)
    (hsig : strContains e sigResolveAny = true ∨ strContains e sigNoAtType = true) :
    (waitForConfig fetches accept render delay timeout).error = none ∧
    (waitForConfig fetches accept render delay timeout).times.length = 1 ∧
    (waitForConfig fetches accept render delay timeout).cfg = none := by
  have hb : waitBody fetches accept 0 = (none, true, none) := by
    unfold waitBody
    rw [hf]
    rcases hsig with h | h
    · simp [h]
    · cases h1 : strContains e sigResolveAny <;> simp [h, h1]
  have hc := untilComplete_completed (waitBody fetches accept) delay timeout (by rw [hb])
  rw [hb] at hc
  simp [waitForConfig, hc]

/-- Claim C2, witness: the amended statement evaluated on the concrete
signature-error run, with a 30000 ms timeout that is never consumed. -/
theorem c2_amended_witness :
    (fetchesC2 0 =
      Except.error "rpc error: could not resolve Any message type envoy.config.foo") ∧
    (strContains "rpc error: could not resolve Any message type envoy.config.foo"
        sigResolveAny = true ∨
      strContains "rpc error: could not resolve Any message type envoy.config.foo"
        sigNoAtType = true) ∧
    ((waitForConfig fetchesC2 acceptC2 renderC2 1 30000).error = none ∧
     (waitForConfig fetchesC2 acceptC2 renderC2 1 30000).times.length = 1 ∧
     (waitForConfig fetchesC2 acceptC2 renderC2 1 30000).cfg = none) :=
  ⟨rfl, Or.inl (by decide),
    c2_amended fetchesC2 acceptC2 renderC2 1 30000 _ rfl (Or.inl (by decide))⟩

/-- Claim C3.  For every acceptance predicate that always returns
`(false, nil)`, once the first fetch decodes a snapshot, WaitForConfig
returns a terminal error after exactly one fetch, performs no retries,
and the snapshot embedded in that error equals the result of that single
fetch. -/
theorem c3_clean_rejection (fetches : Nat → Except String admin.ConfigDump)
    (accept : admin.ConfigDump → Bool × Option String)
    (render : admin.ConfigDump → String) (delay timeout : Nat)
    (c : admin.ConfigDump)
    (hacc : ∀ d, accept d = (false, none))
    (hf : fetches 0 = Except.ok c) :
    (waitForConfig fetches accept render delay timeout).error =
      some (mkWaitErr "envoy config rejected" (render c)) ∧
    (waitForConfig fetches accept render delay timeout).times.length = 1 ∧
    (waitForConfig fetches accept render delay timeout).cfg = some c := by
  have hb : waitBody fetches accept 0 = (some c, true, some "envoy config rejected") := by
    simp [waitBody, hf, hacc]
  have hc := untilComplete_completed (waitBody fetches accept) delay timeout (by rw [hb])
  rw [hb] at hc
  simp [waitForConfig, hc, diagString, mkWaitErr]

/-- Claim C3, witness: the always-rejecting predicate on a concrete
snapshot. -/
theorem c3_witness :
    (∀ d, acceptC3 d = (false, none)) ∧
    fetchesC3 0 = Except.ok ⟨5⟩ ∧
    ((waitForConfig fetchesC3 acceptC3 renderC3 1 30000).error =
        some (mkWaitErr "envoy config rejected" (renderC3 ⟨5⟩)) ∧
      (waitForConfig fetchesC3 acceptC3 renderC3 1 30000).times.length = 1 ∧
      (waitForConfig fetchesC3 acceptC3 renderC3 1 30000).cfg = some ⟨5⟩) :=
  ⟨fun _ => rfl, rfl,
    c3_clean_rejection fetchesC3 acceptC3 renderC3 1 30000 ⟨5⟩ (fun _ => rfl) rfl⟩

/-- Claim C4.  For every acceptance predicate that returns `(true, nil)`
on the snapshot decoded by the first fetch, WaitForConfig returns
success (a nil error) after exactly one fetch. -/
theorem c4_first_accept (fetches : Nat → Except String admin.ConfigDump)
    (accept : admin.ConfigDump → Bool × Option String)
    (render : admin.ConfigDump → String) (delay timeout : Nat)
    (c : admin.ConfigDump)
    (hf : fetches 0 = Except.ok c)
    (hacc : accept c = (true, none)) :
    (waitForConfig fetches accept render delay timeout).error = none ∧
    (waitForConfig fetches accept render delay timeout).times.length = 1 ∧
    (waitForConfig fetches accept render delay timeout).cfg = some c := by
  have hb : waitBody fetches accept 0 = (some c, true, none) := by
    simp [waitBody, hf, hacc]
  have hc := untilComplete_completed (waitBody fetches accept) delay timeout (by rw [hb])
  rw [hb] at hc
  simp [waitForConfig, hc]

/-- Claim C4, witness: the always-accepting predicate on a concrete
snapshot. -/
theorem c4_witness :
    fetchesC4 0 = Except.ok ⟨7⟩ ∧
    acceptC4 ⟨7⟩ = (true, none) ∧
    ((waitForConfig fetchesC4 acceptC4 renderC4 1 30000).error = none ∧
     (waitForConfig fetchesC4 acceptC4 renderC4 1 30000).times.length = 1 ∧
     (waitForConfig fetchesC4 acceptC4 renderC4 1 30000).cfg = some ⟨7⟩) :=
  ⟨rfl, rfl, c4_first_accept fetchesC4 acceptC4 renderC4 1 30000 ⟨7⟩ rfl rfl⟩

/-- Claim C5.  For every invocation of WaitForConfig that receives only
transient outcomes, every transient outcome inside the time budget leads
to a further attempt rather than an immediate stop (attempts continue
exactly until the elapsed time first reaches the timeout), and the
terminal error combines the timeout diagnostic built from the transient
error of the final attempt with the rendered final snapshot state —
never a bare timeout with no cause. -/
theorem c5_transient_until_timeout (fetches : Nat → Except String admin.ConfigDump)
    (accept : admin.ConfigDump → Bool × Option String)
    (render : admin.ConfigDump → String) (delay timeout : Nat)
    (hd : 0 < delay)
    (htr : ∀ n, TransientAt fetches accept n) :
    ∃ K e,
      (waitForConfig fetches accept render delay timeout).times.length = K + 1 ∧
      timeout ≤ K * delay ∧
      (∀ j, j < K → j * delay < timeout) ∧
      (waitBody fetches accept K).2.2 = some e ∧
      (waitForConfig fetches accept render delay timeout).error =
        some (mkWaitErr (timeoutText (some e))
          (diagString render (waitForConfig fetches accept render delay timeout).cfg)) ∧
      (waitForConfig fetches accept render delay timeout).cfg =
        (waitBody fetches accept K).1 := by
  have hinv : timeout < 0 + (timeout + 1) * delay := by
    have h1 : (timeout + 1) * 1 ≤ (timeout + 1) * delay := Nat.mul_le_mul_left _ hd
    omega
  obtain ⟨K, e, hK1, hK2, hK3, hK4, hK5, hK6⟩ :=
    pollLoopF_transient (waitBody fetches accept) delay timeout
      (fun m => transient_waitBody fetches accept m (htr m))
      (timeout + 1) 0 0 none hinv
  refine ⟨K, e, ?_, by simpa using hK2, ?_, by simpa using hK4, ?_, ?_⟩
  · rw [waitForConfig_times]
    show (pollLoopF (waitBody fetches accept) delay timeout (timeout + 1) 0 0 none).times.length
      = K + 1
    rw [hK1]
    simp
  · intro j hj
    have := hK3 j hj
    simpa using this
  · have herr : (untilComplete (waitBody fetches accept) delay timeout).err =
        some (timeoutText (some e)) := hK5
    rw [waitForConfig_cfg_eq]
    simp only [waitForConfig, herr]
  · rw [waitForConfig_cfg_eq]
    have hcfg : (untilComplete (waitBody fetches accept) delay timeout).cfg =
        (waitBody fetches accept (0 + K)).1 := hK6
    simpa using hcfg

/-- Claim C5, witness: an all-transient run with delay 1 and timeout 1,
instantiating the theorem at its concrete inputs. -/
theorem c5_witness :
    0 < 1 ∧
    (∀ n, TransientAt fetchesC5 acceptC5 n) ∧
    (∃ K e,
      (waitForConfig fetchesC5 acceptC5 renderC5 1 1).times.length = K + 1 ∧
      1 ≤ K * 1 ∧
      (∀ j, j < K → j * 1 < 1) ∧
      (waitBody fetchesC5 acceptC5 K).2.2 = some e ∧
      (waitForConfig fetchesC5 acceptC5 renderC5 1 1).error =
        some (mkWaitErr (timeoutText (some e))
          (diagString renderC5 (waitForConfig fetchesC5 acceptC5 renderC5 1 1).cfg)) ∧
      (waitForConfig fetchesC5 acceptC5 renderC5 1 1).cfg =
        (waitBody fetchesC5 acceptC5 K).1) :=
  ⟨by decide,
   fun _ => Or.inl ⟨"connection reset by peer", rfl, by decide, by decide⟩,
   c5_transient_until_timeout fetchesC5 acceptC5 renderC5 1 1 (by decide)
     (fun _ => Or.inl ⟨"connection reset by peer", rfl, by decide, by decide⟩)⟩

/-- Claim C6.  For every acceptance predicate that rejects with an error
on each of the first K-1 snapshots and accepts the K-th, WaitForConfig
with a positive backoff delay and a timeout large enough to permit K
attempts returns success after performing exactly K fetches, whose
scheduled times are consecutive multiples of the backoff delay and hence
separated by at least the configured backoff delay. -/
theorem c6_converges_after_k (fetches : Nat → Except String admin.ConfigDump)
    (accept : admin.ConfigDump → Bool × Option String)
    (render : admin.ConfigDump → String) (delay timeout K : Nat)
    (c : Nat → admin.ConfigDump) (e : Nat → String)
    (hd : 0 < delay) (hK : 0 < K)
    (hf : ∀ n, fetches n = Except.ok (c n))
    (hrej : ∀ j, j < K - 1 → accept (c j) = (false, some (e j)))
    (hok : accept (c (K - 1)) = (true, none))
    (hbudget : ∀ j, j + 1 < K → j * delay < timeout) :
    (waitForConfig fetches accept render delay timeout).error = none ∧
    (waitForConfig fetches accept render delay timeout).times.length = K ∧
    (waitForConfig fetches accept render delay timeout).times =
      (List.range K).map (fun i => i * delay) ∧
    (∀ i, i + 1 < K →
      (waitForConfig fetches accept render delay timeout).times.getD i 0 + delay ≤
        (waitForConfig fetches accept render delay timeout).times.getD (i + 1) 0) := by
  have hinv : timeout < 0 + (timeout + 1) * delay := by
    have h1 : (timeout + 1) * 1 ≤ (timeout + 1) * delay := Nat.mul_le_mul_left _ hd
    omega
  have hloop := pollLoopF_succeeds (waitBody fetches accept) delay timeout
    (K - 1) (timeout + 1) 0 0 none hinv
    (by
      intro j hj
      simp only [Nat.zero_add]
      simp [waitBody, hf j, hrej j hj])
    (by
      intro j hj
      have := hbudget j (by omega)
      omega)
    (by
      simp only [Nat.zero_add]
      simp [waitBody, hf (K - 1), hok])
  have hbody : waitBody fetches accept (0 + (K - 1)) =
      (some (c (K - 1)), true, none) := by
    simp only [Nat.zero_add]
    simp [waitBody, hf (K - 1), hok]
  rw [hbody] at hloop
  have huc : untilComplete (waitBody fetches accept) delay timeout =
      ⟨some (c (K - 1)), none, (List.range (K - 1 + 1)).map (fun i => 0 + i * delay)⟩ := by
    unfold untilComplete
    rw [hloop]
  have hKsub : K - 1 + 1 = K := by omega
  rw [hKsub] at huc
  have htimes : (waitForConfig fetches accept render delay timeout).times =
      (List.range K).map (fun i => i * delay) := by
    rw [waitForConfig_times, huc]
    simp
  refine ⟨?_, ?_, htimes, ?_⟩
  · simp [waitForConfig, huc]
  · rw [htimes]
    simp
  · intro i hi
    rw [htimes, getD_range_map _ K i (by omega), getD_range_map _ K (i + 1) (by omega)]
    rw [Nat.add_mul]
    omega

/-- Claim C6, witness: K = 2, one transient rejection followed by
acceptance, with delay 1 and timeout 5. -/
theorem c6_witness :
    0 < 1 ∧ 0 < 2 ∧
    (∀ n, fetchesC6 n = Except.ok (cC6 n)) ∧
    (∀ j, j < 2 - 1 → acceptC6 (cC6 j) = (false, some (eC6 j))) ∧
    acceptC6 (cC6 (2 - 1)) = (true, none) ∧
    (∀ j, j + 1 < 2 → j * 1 < 5) ∧
    ((waitForConfig fetchesC6 acceptC6 renderC6 1 5).error = none ∧
     (waitForConfig fetchesC6 acceptC6 renderC6 1 5).times.length = 2 ∧
     (waitForConfig fetchesC6 acceptC6 renderC6 1 5).times =
       (List.range 2).map (fun i => i * 1) ∧
     (∀ i, i + 1 < 2 →
       (waitForConfig fetchesC6 acceptC6 renderC6 1 5).times.getD i 0 + 1 ≤
         (waitForConfig fetchesC6 acceptC6 renderC6 1 5).times.getD (i + 1) 0)) :=
  ⟨by decide, by decide, fun _ => rfl,
   fun j hj => by
     have hj0 : j = 0 := by omega
     subst hj0
     rfl,
   rfl,
   fun j hj => by omega,
   c6_converges_after_k fetchesC6 acceptC6 renderC6 1 5 2 cC6 eC6
     (by decide) (by decide) (fun _ => rfl)
     (fun j hj => by
       have hj0 : j = 0 := by omega
       subst hj0
       rfl)
     rfl
     (fun j hj => by omega)⟩

/-- Claim C7.  Each of the four snapshot-kind fetch operations issues a
query with its own distinct path suffix and decodes the response into
the kind-appropriate structured type (witnessed by the decoder field and
result type of each operation); for any of the four kinds, a malformed
response body yields a decode error that embeds the raw body text
verbatim. -/
theorem c7_snapshot_kinds (s : Sidecar) (podExec : String → ExecResult) (dec : Decoders) :
    ((Sidecar.Info s podExec dec).2 = ["pilot-agent request GET server_info"] ∧
     (Sidecar.Config s podExec dec).2 = ["pilot-agent request GET config_dump"] ∧
     (Sidecar.Clusters s podExec dec).2 = ["pilot-agent request GET clusters?format=json"] ∧
     (Sidecar.Listeners s podExec dec).2 = ["pilot-agent request GET listeners?format=json"]) ∧
    ((Sidecar.Info s podExec dec).2 ≠ (Sidecar.Config s podExec dec).2 ∧
     (Sidecar.Info s podExec dec).2 ≠ (Sidecar.Clusters s podExec dec).2 ∧
     (Sidecar.Info s podExec dec).2 ≠ (Sidecar.Listeners s podExec dec).2 ∧
     (Sidecar.Config s podExec dec).2 ≠ (Sidecar.Clusters s podExec dec).2 ∧
     (Sidecar.Config s podExec dec).2 ≠ (Sidecar.Listeners s podExec dec).2 ∧
     (Sidecar.Clusters s podExec dec).2 ≠ (Sidecar.Listeners s podExec dec).2) ∧
    (∀ m, (podExec "pilot-agent request GET server_info").err = none →
      dec.serverInfo (podExec "pilot-agent request GET server_info").stdout =
        Except.error m →
      ∃ pre post, (Sidecar.Info s podExec dec).1 = Except.error
        (pre ++ (podExec "pilot-agent request GET server_info").stdout ++ post)) ∧
    (∀ m, (podExec "pilot-agent request GET config_dump").err = none →
      dec.configDump (podExec "pilot-agent request GET config_dump").stdout =
        Except.error m →
      ∃ pre post, (Sidecar.Config s podExec dec).1 = Except.error
        (pre ++ (podExec "pilot-agent request GET config_dump").stdout ++ post)) ∧
    (∀ m, (podExec "pilot-agent request GET clusters?format=json").err = none →
      dec.clusters (podExec "pilot-agent request GET clusters?format=json").stdout =
        Except.error m →
      ∃ pre post, (Sidecar.Clusters s podExec dec).1 = Except.error
        (pre ++ (podExec "pilot-agent request GET clusters?format=json").stdout ++ post)) ∧
    (∀ m, (podExec "pilot-agent request GET listeners?format=json").err = none →
      dec.listeners (podExec "pilot-agent request GET listeners?format=json").stdout =
        Except.error m →
      ∃ pre post, (Sidecar.Listeners s podExec dec).1 = Except.error
        (pre ++ (podExec "pilot-agent request GET listeners?format=json").stdout ++ post)) ∧
    (∀ m, (podExec "pilot-agent request GET server_info").err = none →
      dec.serverInfo (podExec "pilot-agent request GET server_info").stdout =
        Except.ok m → (Sidecar.Info s podExec dec).1 = Except.ok m) ∧
    (∀ m, (podExec "pilot-agent request GET config_dump").err = none →
      dec.configDump (podExec "pilot-agent request GET config_dump").stdout =
        Except.ok m → (Sidecar.Config s podExec dec).1 = Except.ok m) ∧
    (∀ m, (podExec "pilot-agent request GET clusters?format=json").err = none →
      dec.clusters (podExec "pilot-agent request GET clusters?format=json").stdout =
        Except.ok m → (Sidecar.Clusters s podExec dec).1 = Except.ok m) ∧
    (∀ m, (podExec "pilot-agent request GET listeners?format=json").err = none →
      dec.listeners (podExec "pilot-agent request GET listeners?format=json").stdout =
        Except.ok m → (Sidecar.Listeners s podExec dec).1 = Except.ok m) := by
  refine ⟨⟨adminRequest_trace s podExec dec.serverInfo "server_info",
           adminRequest_trace s podExec dec.configDump "config_dump",
           adminRequest_trace s podExec dec.clusters "clusters?format=json",
           adminRequest_trace s podExec dec.listeners "listeners?format=json"⟩,
          ?_, ?_, ?_, ?_, ?_, ?_, ?_, ?_, ?_⟩
  · simp only [Sidecar.Info, Sidecar.Config, Sidecar.Clusters, Sidecar.Listeners]
    rw [adminRequest_trace s podExec dec.serverInfo "server_info",
      adminRequest_trace s podExec dec.configDump "config_dump",
      adminRequest_trace s podExec dec.clusters "clusters?format=json",
      adminRequest_trace s podExec dec.listeners "listeners?format=json"]
    refine ⟨?_, ?_, ?_, ?_, ?_, ?_⟩ <;> decide
  · exact fun m hx hdc =>
      adminRequest_decode_error_embeds s podExec dec.serverInfo "server_info" m hx hdc
  · exact fun m hx hdc =>
      adminRequest_decode_error_embeds s podExec dec.configDump "config_dump" m hx hdc
  · exact fun m hx hdc =>
      adminRequest_decode_error_embeds s podExec dec.clusters "clusters?format=json" m hx hdc
  · exact fun m hx hdc =>
      adminRequest_decode_error_embeds s podExec dec.listeners "listeners?format=json" m hx hdc
  · exact fun m hx hdc =>
      adminRequest_decode_ok s podExec dec.serverInfo "server_info" m hx hdc
  · exact fun m hx hdc =>
      adminRequest_decode_ok s podExec dec.configDump "config_dump" m hx hdc
  · exact fun m hx hdc =>
      adminRequest_decode_ok s podExec dec.clusters "clusters?format=json" m hx hdc
  · exact fun m hx hdc =>
      adminRequest_decode_ok s podExec dec.listeners "listeners?format=json" m hx hdc

/-- Claim C7, witness: a malformed body for every kind, showing the four
distinct issued commands and the raw body embedded in each decode
error. -/
theorem c7_witness :
    (Sidecar.Info sC7 podExecC7 decC7).2 = ["pilot-agent request GET server_info"] ∧
    (Sidecar.Config sC7 podExecC7 decC7).2 = ["pilot-agent request GET config_dump"] ∧
    (Sidecar.Clusters sC7 podExecC7 decC7).2 =
      ["pilot-agent request GET clusters?format=json"] ∧
    (Sidecar.Listeners sC7 podExecC7 decC7).2 =
      ["pilot-agent request GET listeners?format=json"] ∧
    (∃ pre post, (Sidecar.Info sC7 podExecC7 decC7).1 =
      Except.error (pre ++ "bogus-body" ++ post)) ∧
    (∃ pre post, (Sidecar.Config sC7 podExecC7 decC7).1 =
      Except.error (pre ++ "bogus-body" ++ post)) ∧
    (∃ pre post, (Sidecar.Clusters sC7 podExecC7 decC7).1 =
      Except.error (pre ++ "bogus-body" ++ post)) ∧
    (∃ pre post, (Sidecar.Listeners sC7 podExecC7 decC7).1 =
      Except.error (pre ++ "bogus-body" ++ post)) := by
  obtain ⟨hT, hD, hEi, hEc, hEcl, hEls, hS⟩ := c7_snapshot_kinds sC7 podExecC7 decC7
  exact ⟨hT.1, hT.2.1, hT.2.2.1, hT.2.2.2,
    hEi "unexpected token" rfl rfl,
    hEc "unexpected token" rfl rfl,
    hEcl "unexpected token" rfl rfl,
    hEls "unexpected token" rfl rfl⟩

/-- Claim C8.  Every single snapshot fetch issues exactly one remote
execution (no retry at the accessor layer); on transport failure the
returned error embeds the captured combined standard-output and
standard-error text, and on decode failure it embeds the raw response
text. -/
theorem c8_single_execution {α : Type} (s : Sidecar) (podExec : String → ExecResult)
    (decode : String → Except String α) (path : String) :
    (adminRequest s podExec decode path).2.length = 1 ∧
    (∀ e, (podExec ("pilot-agent request GET " ++ path)).err = some e →
      ∃ pre post, (adminRequest s podExec decode path).1 =
        Except.error (pre ++ ((podExec ("pilot-agent request GET " ++ path)).stdout
          ++ (podExec ("pilot-agent request GET " ++ path)).stderr) ++ post)) ∧
    (∀ m, (podExec ("pilot-agent request GET " ++ path)).err = none →
      decode (podExec ("pilot-agent request GET " ++ path)).stdout = Except.error m →
      ∃ pre post, (adminRequest s podExec decode path).1 =
        Except.error (pre ++ (podExec ("pilot-agent request GET " ++ path)).stdout
          ++ post)) := by
  refine ⟨?_, ?_, ?_⟩
  · rw [adminRequest_trace]
    rfl
  · exact fun e hx => adminRequest_exec_error_embeds s podExec decode path e hx
  · exact fun m hx hdc => adminRequest_decode_error_embeds s podExec decode path m hx hdc

/-- Claim C8, witness: one transport-failing oracle and one
decode-failing oracle, both using the config-dump path. -/
theorem c8_witness :
    (adminRequest sC8 podExecC8 decodeC8 "config_dump").2.length = 1 ∧
    (podExecC8 "pilot-agent request GET config_dump").err =
      some "command terminated with exit code 1" ∧
    (∃ pre post, (adminRequest sC8 podExecC8 decodeC8 "config_dump").1 =
      Except.error (pre ++ ("out-8" ++ "err-8") ++ post)) ∧
    (podExecC8b "pilot-agent request GET config_dump").err = none ∧
    decodeC8 "not-json" = Except.error "bad" ∧
    (∃ pre post, (adminRequest sC8 podExecC8b decodeC8 "config_dump").1 =
      Except.error (pre ++ "not-json" ++ post)) := by
  obtain ⟨hlen, hexec, _⟩ := c8_single_execution sC8 podExecC8 decodeC8 "config_dump"
  obtain ⟨_, _, hdec⟩ := c8_single_execution sC8 podExecC8b decodeC8 "config_dump"
  exact ⟨hlen, rfl, hexec "command terminated with exit code 1" rfl, rfl, rfl,
    hdec "bad" rfl rfl⟩

/-- Claim C9.  With no caller options, the poll policy of WaitForConfig
is the 100 ms backoff delay and the 30000 ms (30 s) total timeout;
options supplied by the caller are applied after the prepended defaults
and therefore take precedence over them. -/
theorem c9_poll_policy (base : RetryConfig) :
    waitForConfigPolicy base [] = ⟨defaultConfigDelay, defaultConfigTimeout⟩ ∧
    waitForConfigPolicy base [] = ⟨100, 30000⟩ ∧
    (∀ d t, waitForConfigPolicy base [retry.BackoffDelay d, retry.Timeout t] = ⟨d, t⟩) := by
  refine ⟨rfl, rfl, fun d t => rfl⟩

/-- Claim C10.  Logs always requests the complete container log: the
since-last-restart flag passed to the log channel is `false` for every
invocation, alongside the pod name, namespace and the proxy container
name. -/
theorem c10_logs_full (s : Sidecar) (podLogs : PodLogsCall → Except String String) :
    (Sidecar.Logs s podLogs).2.previousLog = false ∧
    (Sidecar.Logs s podLogs).2 =
      ⟨s.podName, s.podNamespace, proxyContainerName, false⟩ := by
  exact ⟨rfl, rfl⟩

end SidecarSpec
